import Mathlib

set_option maxRecDepth 8000

/-!
Shallow embedding of the ASCII video converter core (src/App.tsx).

The conversion pipeline lives in `convertToAscii` (src/App.tsx, lines 51-90):
it derives an output geometry from the video's native dimensions and the
user-set resolution, downsamples the frame onto a canvas of that geometry,
reads the RGBA pixel buffer, maps each pixel to a glyph of a fixed intensity
ramp via a perceptually weighted luminance, and assembles the glyphs into a
newline-terminated row-major text block.

The numeric expressions of the source are JavaScript doubles.  Two models of
them appear below.  `gray`, `rampIndex` and `outputHeight` evaluate the
expressions in exact rational arithmetic; they carry the structural facts
(index range, monotonicity, the zero-area and zero-height cases) whose
conclusions do not hinge on rounding.  `grayFP`, `rampIndexFP` and
`outputHeightFP` evaluate the same expressions in IEEE-754 binary64
arithmetic — every operation rounds its exact result to the nearest double,
ties to even — and decide the claims where one-ulp effects change the
answer: in doubles the luminance weights do not sum to 1, so white quantizes
to 63 instead of 64, and the derived height can land one below the exact
floor.  The byte values delivered by `getImageData` (a `Uint8ClampedArray`)
are naturals in `[0, 255]` and are exact as doubles.
-/

namespace AsciiVideo

/-- src/App.tsx line 5: the 65-glyph intensity ramp.
The two brace glyphs are written with `\x7d\x7b` escapes. -/
def ASCII_RAMP : String :=
  "`^\",:;Il!i~+_-?][\x7d\x7b1)(|\\/tfjrxnuvczXYUJCLQ0OZmwqpdbkhao*#MW&8%B@$"

/-- src/App.tsx line 6. -/
def DEFAULT_RESOLUTION : ℕ := 150

/-- src/App.tsx line 7: `const FONT_SIZE_ADJUST = 0.5`. -/
def FONT_SIZE_ADJUST : ℚ := 0.5

/-- src/App.tsx line 80: `const gray = 0.21 * r + 0.72 * g + 0.07 * b`,
evaluated in exact rational arithmetic (the double-rounded evaluation is
`grayFP` below). -/
def gray (r g b : ℕ) : ℚ := 0.21 * r + 0.72 * g + 0.07 * b

/-- src/App.tsx line 81:
`const rampIndex = Math.floor((gray / 255) * (ASCII_RAMP.length - 1))`,
over the exact `gray` (the double-rounded evaluation is `rampIndexFP`
below). -/
def rampIndex (r g b : ℕ) : ℤ :=
  ⌊gray r g b / 255 * ((ASCII_RAMP.length - 1 : ℕ) : ℚ)⌋

theorem ascii_ramp_length : ASCII_RAMP.length = 65 := rfl

/-- The quantizer's exact rational arithmetic collapses to one natural
division: `⌊((0.21r + 0.72g + 0.07b) / 255) * 64⌋ = (21r + 72g + 7b) * 64 / 25500`. -/
theorem rampIndex_eq_div (r g b : ℕ) :
    rampIndex r g b = (((21 * r + 72 * g + 7 * b) * 64) / 25500 : ℕ) := by
  have h1 : (gray r g b / 255 * ((ASCII_RAMP.length - 1 : ℕ) : ℚ))
      = ((((21 * r + 72 * g + 7 * b) * 64 : ℕ)) : ℚ) / ((25500 : ℕ) : ℚ) := by
    unfold gray
    norm_num [ascii_ramp_length]
    ring
  unfold rampIndex
  rw [h1, Rat.floor_natCast_div_natCast]
  exact (Int.natCast_div _ _).symm

/-- C1: for every RGB triple with each channel in `[0, 255]`, the quantizer
returns an index in `[0, N-1]`, so `ASCII_RAMP[rampIndex]` never goes out of
bounds (src/App.tsx lines 80-82). -/
theorem rampIndex_in_range (r g b : ℕ)
    (hr : r ≤ 255) (hg : g ≤ 255) (hb : b ≤ 255) :
    0 ≤ rampIndex r g b ∧ rampIndex r g b ≤ ((ASCII_RAMP.length - 1 : ℕ) : ℤ)
      ∧ (rampIndex r g b).toNat < ASCII_RAMP.length := by
  have hnum : (21 * r + 72 * g + 7 * b) * 64 ≤ 25500 * 64 := by omega
  have hdiv : (21 * r + 72 * g + 7 * b) * 64 / 25500 ≤ 64 :=
    le_trans (Nat.div_le_div_right hnum) (by decide)
  refine ⟨?_, ?_, ?_⟩
  · rw [rampIndex_eq_div]; exact Int.natCast_nonneg _
  · rw [rampIndex_eq_div, ascii_ramp_length]
    exact_mod_cast hdiv
  · rw [rampIndex_eq_div, ascii_ramp_length, Int.toNat_natCast]
    omega

/-- Witness for C1 at the triple (255, 255, 255). -/
theorem rampIndex_in_range_witness :
    0 ≤ rampIndex 255 255 255
      ∧ rampIndex 255 255 255 ≤ ((ASCII_RAMP.length - 1 : ℕ) : ℤ)
      ∧ (rampIndex 255 255 255).toNat < ASCII_RAMP.length :=
  rampIndex_in_range 255 255 255 (by decide) (by decide) (by decide)

/-- C6: increasing all three channels by the same amount `d` never decreases
the quantizer index (src/App.tsx lines 80-81). -/
theorem rampIndex_monotone (r g b d : ℕ)
    (hr : r + d ≤ 255) (_hg : g + d ≤ 255) (_hb : b + d ≤ 255) :
    rampIndex r g b ≤ rampIndex (r + d) (g + d) (b + d) := by
  rw [rampIndex_eq_div, rampIndex_eq_div]
  have h : (21 * r + 72 * g + 7 * b) * 64
      ≤ (21 * (r + d) + 72 * (g + d) + 7 * (b + d)) * 64 := by omega
  exact_mod_cast Nat.div_le_div_right h

/-- Witness for C6 at r = g = b = 0, d = 255. -/
theorem rampIndex_monotone_witness :
    rampIndex 0 0 0 ≤ rampIndex (0 + 255) (0 + 255) (0 + 255) :=
  rampIndex_monotone 0 0 0 255 (by decide) (by decide) (by decide)

/-- src/App.tsx lines 60-62:
`const aspectRatio = video.videoHeight / video.videoWidth;`
`const canvasHeight = Math.floor(aspectRatio * canvasWidth * FONT_SIZE_ADJUST)`,
evaluated in exact rational arithmetic (the double-rounded evaluation is
`outputHeightFP` below).
For `videoWidth = 0` JavaScript produces a non-finite `aspectRatio` and the
subsequent `canvas.height` assignment coerces the non-finite value to 0; the
Lean convention `x / 0 = 0` yields the same height 0 for that case. -/
def outputHeight (videoWidth videoHeight resolution : ℕ) : ℤ :=
  ⌊(videoHeight : ℚ) / (videoWidth : ℚ) * (resolution : ℚ) * FONT_SIZE_ADJUST⌋

/-- For a positive source width, the geometry floor collapses to one natural
division: `⌊(h/w) * res * 0.5⌋ = h * res / (2 * w)`. -/
theorem outputHeight_eq_div (w h r : ℕ) (hw : 0 < w) :
    outputHeight w h r = ((h * r / (2 * w) : ℕ) : ℤ) := by
  have hw0 : ((w : ℕ) : ℚ) ≠ 0 := by exact_mod_cast hw.ne.symm
  have h1 : (h : ℚ) / (w : ℚ) * (r : ℚ) * FONT_SIZE_ADJUST
      = (((h * r : ℕ)) : ℚ) / (((2 * w : ℕ)) : ℚ) := by
    unfold FONT_SIZE_ADJUST
    push_cast
    field_simp
    ring
  unfold outputHeight
  rw [h1, Rat.floor_natCast_div_natCast]
  exact (Int.natCast_div _ _).symm

/-- Counterexample to C3: the source 1000×1 has positive native width, the
requested width 50 lies in the configured range [50, 300], yet the derived
height is 0, not positive. -/
theorem outputHeight_zero_cex :
    0 < (1000 : ℕ) ∧ 50 ≤ (50 : ℕ) ∧ (50 : ℕ) ≤ 300
      ∧ outputHeight 1000 1 50 = 0 := by
  refine ⟨by decide, by decide, by decide, ?_⟩
  rw [outputHeight_eq_div 1000 1 50 (by decide)]
  decide

/-- `⌊log2 n⌋` (0 at 0) by fuelled halving; the fuel `n` always suffices. -/
def log2fuel : ℕ → ℕ → ℕ
  | 0, _ => 0
  | fuel + 1, n => if n < 2 then 0 else log2fuel fuel (n / 2) + 1

def nlog2 (n : ℕ) : ℕ := log2fuel n n

/-- The IEEE-754 binary64 rounding (to nearest, ties to even) of the
nonnegative rational `a / b`, returned as a numerator/denominator pair whose
denominator is a power of two.  The exponent is read off after scaling by
`2 ^ 200`, which is exact for the magnitudes arising in this pipeline
(every nonzero value lies well inside `(2 ^ -200, 2 ^ 200)`); negatives,
subnormals, overflow and NaN/Infinity do not arise here and are not
modelled (`b = 0` or `a = 0` yield the value 0). -/
def roundFP (a b : ℕ) : ℕ × ℕ :=
  let e : ℤ := (nlog2 (a * 2 ^ 200 / b) : ℤ) - 200
  let t : ℤ := 52 - e
  let A : ℕ := if 0 ≤ t then a * 2 ^ t.toNat else a
  let B : ℕ := if 0 ≤ t then b else b * 2 ^ (-t).toNat
  let n : ℕ := A / B
  let m : ℕ :=
    if 2 * (A % B) < B then n
    else if B < 2 * (A % B) then n + 1
    else if n % 2 = 0 then n else n + 1
  if 52 ≤ e then (m * 2 ^ (e - 52).toNat, 1)
  else (m, 2 ^ (52 - e).toNat)

/-- A double multiplication: the exact product, rounded. -/
def fpMul (x y : ℕ × ℕ) : ℕ × ℕ := roundFP (x.1 * y.1) (x.2 * y.2)

/-- A double addition: the exact sum, rounded. -/
def fpAdd (x y : ℕ × ℕ) : ℕ × ℕ := roundFP (x.1 * y.2 + y.1 * x.2) (x.2 * y.2)

/-- A double division: the exact quotient, rounded. -/
def fpDiv (x y : ℕ × ℕ) : ℕ × ℕ := roundFP (x.1 * y.2) (x.2 * y.1)

/-- `Math.floor` of a nonnegative double. -/
def fpFloor (x : ℕ × ℕ) : ℤ := (x.1 : ℤ) / (x.2 : ℤ)

/-- src/App.tsx line 80 in IEEE-754 binary64 arithmetic:
`0.21 * r + 0.72 * g + 0.07 * b` with the literals rounded to doubles
(`roundFP 21 100` is the double written `0.21`), left-to-right evaluation,
and every operation rounded. -/
def grayFP (r g b : ℕ) : ℕ × ℕ :=
  fpAdd (fpAdd (fpMul (roundFP 21 100) (r, 1)) (fpMul (roundFP 72 100) (g, 1)))
    (fpMul (roundFP 7 100) (b, 1))

/-- src/App.tsx lines 81-82 in binary64 arithmetic:
`Math.floor((gray / 255) * (ASCII_RAMP.length - 1))`; 255 and the length 64
are exact doubles. -/
def rampIndexFP (r g b : ℕ) : ℤ :=
  fpFloor (fpMul (fpDiv (grayFP r g b) (255, 1)) (ASCII_RAMP.length - 1, 1))

/-- src/App.tsx lines 60-62 in binary64 arithmetic:
`Math.floor((videoHeight / videoWidth) * canvasWidth * FONT_SIZE_ADJUST)`;
the native dimensions and the resolution are exact doubles, `0.5` is the
exact double `roundFP 1 2`. -/
def outputHeightFP (videoWidth videoHeight resolution : ℕ) : ℤ :=
  fpFloor (fpMul (fpMul (fpDiv (videoHeight, 1) (videoWidth, 1)) (resolution, 1))
    (roundFP 1 2))

/-- C2 (amended): the derived output height is
`Math.floor((sourceHeight / sourceWidth) * width * cellAspectAdjust)`
evaluated in double arithmetic with `cellAspectAdjust = FONT_SIZE_ADJUST
= 0.5`; for a 1920×1080 source and width 150 the height is 42, where the
double evaluation agrees with the exact rational formula
(src/App.tsx lines 7, 60-62). -/
theorem outputHeightFP_geometry :
    FONT_SIZE_ADJUST = 1 / 2
      ∧ outputHeightFP 1920 1080 150 = 42
      ∧ outputHeightFP 1920 1080 150 = outputHeight 1920 1080 150 := by
  refine ⟨by norm_num [FONT_SIZE_ADJUST], by decide, ?_⟩
  rw [outputHeight_eq_div 1920 1080 150 (by decide)]
  decide

/-- Counterexample to C2: for a 100×116 source at width 50 the program's
double arithmetic yields height 28 — `116 / 100` rounds to a double just
below 1.16 and `(116/100) * 50` to 57.99999999999999 — while the claimed
exact formula `floor((116/100) * 50 * 0.5)` gives 29. -/
theorem outputHeightFP_formula_cex :
    outputHeightFP 100 116 50 = 28
      ∧ outputHeight 100 116 50 = 29
      ∧ outputHeightFP 100 116 50 ≠ outputHeight 100 116 50 := by
  have h29 : outputHeight 100 116 50 = 29 := by
    rw [outputHeight_eq_div 100 116 50 (by decide)]
    decide
  exact ⟨by decide, h29, by rw [h29]; decide⟩

/-- C3 (amended): the derived height is never negative, but it is not always
positive: beyond the extreme-aspect-ratio counterexample, the double
pipeline yields 0 even at the exact boundary `2 * sourceWidth =
sourceHeight * width` (a 98×2 source at width 98, where `(2/98) * 98` rounds
to 1.9999999999999998), while the reference 1920×1080 source at width 150
has positive height (src/App.tsx lines 60-65). -/
theorem outputHeightFP_nonneg_cases :
    (∀ w h r : ℕ, 0 ≤ outputHeightFP w h r)
      ∧ outputHeightFP 98 2 98 = 0
      ∧ 0 < outputHeightFP 1920 1080 150 := by
  refine ⟨fun w h r => Int.ediv_nonneg (Int.natCast_nonneg _) (Int.natCast_nonneg _),
    by decide, by decide⟩

/-- C5: the quantizer evaluated in the program's double arithmetic: black
maps to index 0 as the spec asks, but white maps to 63, not
`N - 1 = 64` — in doubles `0.21*255 + 0.72*255 + 0.07*255` is
8972014882652159 / 2^45 = 254.99999999999997, so `(gray / 255) * 64` falls
just below 64 and white never reaches the brightest glyph
(src/App.tsx lines 80-82 with the ramp of line 5). -/
theorem rampIndexFP_black_white :
    rampIndexFP 0 0 0 = 0
      ∧ grayFP 255 255 255 = (8972014882652159, 35184372088832)
      ∧ rampIndexFP 255 255 255 = 63
      ∧ rampIndexFP 255 255 255 ≠ ((ASCII_RAMP.length - 1 : ℕ) : ℤ) := by
  exact ⟨by decide, by decide, by decide, by decide⟩

/-- src/App.tsx lines 71-85: the nested conversion loop.  The source
accumulates `asciiString += ASCII_RAMP[rampIndex]` per cell and a newline
per row; the per-cell index function is abstracted so the Grid Assembler
can be stated over an arbitrary row-major index grid. -/
def assembleGrid (ramp : String) (idx : ℕ → ℕ → ℕ) (w h : ℕ) : String :=
  (List.range h).foldl
    (fun acc y =>
      ((List.range w).foldl
        (fun acc2 x => acc2.push (ramp.data.getD (idx y x) ' ')) acc).push '\n')
    ""

/-- src/App.tsx lines 75-76: RGBA layout, `offset = (y * canvasWidth + x) * 4`. -/
def pixelR (data : List ℕ) (w y x : ℕ) : ℕ := data.getD ((y * w + x) * 4) 0

/-- src/App.tsx line 77. -/
def pixelG (data : List ℕ) (w y x : ℕ) : ℕ := data.getD ((y * w + x) * 4 + 1) 0

/-- src/App.tsx line 78. -/
def pixelB (data : List ℕ) (w y x : ℕ) : ℕ := data.getD ((y * w + x) * 4 + 2) 0

/-- The quantizer index of the cell (x, y) of the RGBA buffer. -/
def indexAt (data : List ℕ) (w y x : ℕ) : ℕ :=
  (rampIndex (pixelR data w y x) (pixelG data w y x) (pixelB data w y x)).toNat

/-- src/App.tsx lines 70-85: the full frame text built from the RGBA buffer
returned by `getImageData`. -/
def asciiFrame (data : List ℕ) (w h : ℕ) : String :=
  assembleGrid ASCII_RAMP (indexAt data w) w h

/-- One assembled row: `w` glyphs followed by the newline of line 84. -/
def rowBlock (ramp : String) (idx : ℕ → ℕ → ℕ) (w y : ℕ) : List Char :=
  (List.range w).map (fun x => ramp.data.getD (idx y x) ' ') ++ ['\n']

theorem data_push (s : String) (c : Char) : (s.push c).data = s.data ++ [c] := by
  simp [String.push]

theorem foldl_push_data (f : ℕ → Char) (l : List ℕ) :
    ∀ acc : String,
      (l.foldl (fun a x => a.push (f x)) acc).data = acc.data ++ l.map f := by
  induction l with
  | nil => intro acc; simp
  | cons x xs ih =>
    intro acc
    rw [List.foldl_cons, ih, data_push]
    simp

theorem foldl_rows_data (ramp : String) (idx : ℕ → ℕ → ℕ) (w : ℕ) (l : List ℕ) :
    ∀ acc : String,
      (l.foldl
        (fun acc y =>
          ((List.range w).foldl
            (fun a x => a.push (ramp.data.getD (idx y x) ' ')) acc).push '\n') acc).data
      = acc.data ++ (l.map (rowBlock ramp idx w)).flatten := by
  induction l with
  | nil => intro acc; simp
  | cons y ys ih =>
    intro acc
    rw [List.foldl_cons, ih, data_push,
      foldl_push_data (fun x => ramp.data.getD (idx y x) ' ') (List.range w)]
    simp [rowBlock]

theorem assembleGrid_data (ramp : String) (idx : ℕ → ℕ → ℕ) (w h : ℕ) :
    (assembleGrid ramp idx w h).data
      = ((List.range h).map (rowBlock ramp idx w)).flatten := by
  unfold assembleGrid
  rw [foldl_rows_data]
  simp

/-- C4: the Grid Assembler turns a `W × H` row-major index grid into exactly
`H` rows top-to-bottom, each row the `W` glyphs `ramp[index]` left-to-right
followed by the row terminator; on the 26-glyph ramp `"AB...Z"` with
`W = 3, H = 2` and indices `[[0, 25, 2], [1, 0, 25]]` the output is
`"AZC\nBAZ\n"` (src/App.tsx lines 71-86). -/
theorem assembleGrid_rows :
    (∀ (ramp : String) (idx : ℕ → ℕ → ℕ) (w h : ℕ),
        (assembleGrid ramp idx w h).data
          = ((List.range h).map
              (fun y =>
                (List.range w).map (fun x => ramp.data.getD (idx y x) ' ')
                  ++ ['\n'])).flatten
          ∧ (List.range h).length = h
          ∧ ∀ y : ℕ,
              ((List.range w).map (fun x => ramp.data.getD (idx y x) ' ')).length = w)
      ∧ assembleGrid "ABCDEFGHIJKLMNOPQRSTUVWXYZ"
          (fun y x => ([[0, 25, 2], [1, 0, 25]].getD y []).getD x 0) 3 2
        = "AZC\nBAZ\n" := by
  exact ⟨fun ramp idx w h =>
    ⟨assembleGrid_data ramp idx w h, by simp, fun y => by simp⟩, by rfl⟩

/-- No glyph drawn from the ramp (nor the `getD` default) is a newline. -/
theorem ramp_getD_ne_newline (i : ℕ) : ASCII_RAMP.data.getD i ' ' ≠ '\n' := by
  rcases Nat.lt_or_ge i ASCII_RAMP.data.length with hlt | hge
  · have hmem : ASCII_RAMP.data.getD i ' ' ∈ ASCII_RAMP.data := by
      simp [List.getD_eq_getElem?_getD, List.getElem?_eq_getElem hlt]
    intro hEq
    rw [hEq] at hmem
    revert hmem
    decide
  · simp [List.getD_eq_getElem?_getD, List.getElem?_eq_none hge]

theorem rowBlock_count_newline (data : List ℕ) (w y : ℕ) :
    (rowBlock ASCII_RAMP (indexAt data w) w y).count '\n' = 1 := by
  unfold rowBlock
  rw [List.count_append]
  have h0 : ((List.range w).map
      (fun x => ASCII_RAMP.data.getD (indexAt data w y x) ' ')).count '\n' = 0 := by
    rw [List.count_eq_zero]
    simp only [List.mem_map]
    rintro ⟨x, hx, hfx⟩
    exact ramp_getD_ne_newline _ hfx
  rw [h0]
  decide

/-- C10: every frame text carries exactly `H` newline characters, one
terminating each row, and when `H > 0` the final character of the frame is a
newline (src/App.tsx lines 73-85). -/
theorem asciiFrame_newlines (data : List ℕ) (w h : ℕ) :
    ((asciiFrame data w h).data.count '\n') = h
      ∧ (0 < h → (asciiFrame data w h).data.getLast? = some '\n') := by
  constructor
  · unfold asciiFrame
    rw [assembleGrid_data, List.count_flatten, List.map_map]
    have : (List.count '\n' ∘ rowBlock ASCII_RAMP (indexAt data w) w)
        = fun y => 1 := by
      funext y
      exact rowBlock_count_newline data w y
    rw [this]
    simp
  · intro hpos
    unfold asciiFrame
    rw [assembleGrid_data]
    obtain ⟨k, rfl⟩ : ∃ k, h = k + 1 := ⟨h - 1, by omega⟩
    rw [List.range_succ, List.map_append, List.flatten_append]
    simp [rowBlock, List.getLast?_append]

/-- Witness for C10 at a concrete 1×1 frame. -/
theorem asciiFrame_newlines_witness :
    ((asciiFrame [0, 0, 0, 255] 1 1).data.count '\n') = 1
      ∧ (asciiFrame [0, 0, 0, 255] 1 1).data.getLast? = some '\n' :=
  ⟨(asciiFrame_newlines [0, 0, 0, 255] 1 1).1,
    (asciiFrame_newlines [0, 0, 0, 255] 1 1).2 (by decide)⟩

/-- src/App.tsx lines 41-42, 52-70: a decoded media source as the core sees
it: native dimensions plus the downsampled RGBA buffer that
`ctx.drawImage(video, 0, 0, w, h)` followed by `ctx.getImageData(0, 0, w, h)`
delivers for a requested canvas geometry.  The exact resampling filter is
host-defined, so it enters the model as the function `sample`; an unchanged
source frame means an unchanged `sample` function. -/
structure Source where
  videoWidth : ℕ
  videoHeight : ℕ
  sample : ℕ → ℕ → List ℕ

/-- src/App.tsx lines 36, 38: the component state the conversion cycle
touches: the current frame text `asciiArt` and the `resolution` setting. -/
structure AppState where
  asciiArt : String
  resolution : ℕ

/-- src/App.tsx lines 51-90, `convertToAscii`.  `video = none` models a null
`videoRef.current` (line 52); `hasCtx = false` models a null
`canvasRef.current` (line 52) or a null `getContext` result (line 58); in
all three cases the function returns before touching `asciiArt`.
`getImageData` on a zero-area canvas throws `IndexSizeError`, which the
`try/catch` of lines 69-89 swallows leaving `asciiArt` untouched: the
`canvasWidth * canvasHeight = 0` branch.  A non-finite `aspectRatio` (zero
`videoWidth`, line 60) reaches the same branch because the `canvas.height`
assignment of line 65 coerces the non-finite value to 0, matching
`outputHeight`'s value 0 there. -/
def convertCycle (video : Option Source) (hasCtx : Bool) (st : AppState) : AppState :=
  match video with
  | none => st
  | some v =>
    if hasCtx = false then st
    else
      let canvasWidth := st.resolution
      let canvasHeight := (outputHeight v.videoWidth v.videoHeight st.resolution).toNat
      if canvasWidth * canvasHeight = 0 then st
      else { st with
        asciiArt := asciiFrame (v.sample canvasWidth canvasHeight) canvasWidth canvasHeight }

/-- C7: the conversion cycle is deterministic in its inputs: with the source
frame, canvas surface and resolution unchanged, a second `convertToAscii`
call produces a frame text byte-identical to the first call's
(src/App.tsx lines 51-90). -/
theorem convertCycle_deterministic (video : Option Source) (hasCtx : Bool) (st : AppState) :
    (convertCycle video hasCtx (convertCycle video hasCtx st)).asciiArt
      = (convertCycle video hasCtx st).asciiArt := by
  unfold convertCycle
  cases video with
  | none => rfl
  | some v =>
    by_cases hc : hasCtx = false
    · simp [hc]
    · by_cases hz :
        st.resolution * (outputHeight v.videoWidth v.videoHeight st.resolution).toNat = 0
      · simp [hc, hz]
      · simp [hc, hz]

/-- A source with a zero-area native geometry derives the output height 0. -/
theorem outputHeight_zero_area (w h r : ℕ) (hz : w * h = 0) :
    outputHeight w h r = 0 := by
  unfold outputHeight
  rcases Nat.mul_eq_zero.mp hz with h0 | h0 <;> subst h0 <;>
    simp [FONT_SIZE_ADJUST]

/-- C8: when the video element is missing, the drawing surface cannot be
acquired, or the source's native dimensions have zero area, the conversion
cycle returns with the state — in particular the previous frame text —
unchanged; being a total function, it never aborts the render loop
(src/App.tsx lines 52-58, 69-89). -/
theorem convertCycle_unavailable (st : AppState) (v : Source) (hasCtx : Bool) :
    convertCycle none hasCtx st = st
      ∧ convertCycle (some v) false st = st
      ∧ (v.videoWidth * v.videoHeight = 0 → convertCycle (some v) hasCtx st = st) := by
  refine ⟨rfl, rfl, fun hz => ?_⟩
  unfold convertCycle
  by_cases hc : hasCtx = false
  · simp [hc]
  · simp [hc, outputHeight_zero_area _ _ _ hz]

/-- Witness for C8: a 0×1080 source (metadata not yet loaded) with a live
canvas surface leaves the previous frame text `"prev"` unchanged. -/
theorem convertCycle_unavailable_witness :
    convertCycle (some ⟨0, 1080, fun _ _ => []⟩) true ⟨"prev", 150⟩
      = ⟨"prev", 150⟩ :=
  (convertCycle_unavailable ⟨"prev", 150⟩ ⟨0, 1080, fun _ _ => []⟩ true).2.2 (by decide)

/-- src/App.tsx line 195. -/
def RESOLUTION_MIN : ℕ := 50

/-- src/App.tsx line 196. -/
def RESOLUTION_MAX : ℕ := 300

/-- Modelled from the spec: the repository declares the resolution range
input with `min="50"` and `max="300"` (src/App.tsx lines 192-200) but the
clamping of an out-of-range supplied value to those bounds is performed by
the HTML range control's value sanitization, which is host code outside this
repository; following the spec sentence "Out-of-range `resolution` input
from the user must be clamped to the configured bounds rather than
rejected", the delivered value is the supplied value clamped to
`[RESOLUTION_MIN, RESOLUTION_MAX]`. -/
def clampResolution (v : ℤ) : ℤ :=
  max (RESOLUTION_MIN : ℤ) (min (RESOLUTION_MAX : ℤ) v)

/-- C9: a resolution supplied from outside the configured range is clamped
to the nearest bound, never rejected, so the width the conversion cycle uses
always lies in `[50, 300]` (src/App.tsx lines 38, 192-200). -/
theorem clampResolution_bounds (v : ℤ) :
    (RESOLUTION_MIN : ℤ) ≤ clampResolution v
      ∧ clampResolution v ≤ (RESOLUTION_MAX : ℤ)
      ∧ (v < (RESOLUTION_MIN : ℤ) → clampResolution v = RESOLUTION_MIN)
      ∧ ((RESOLUTION_MAX : ℤ) < v → clampResolution v = RESOLUTION_MAX)
      ∧ ((RESOLUTION_MIN : ℤ) ≤ v → v ≤ (RESOLUTION_MAX : ℤ) →
          clampResolution v = v) := by
  unfold clampResolution RESOLUTION_MIN RESOLUTION_MAX
  push_cast
  omega

/-- Witness for C9 at the out-of-range value 400. -/
theorem clampResolution_bounds_witness :
    clampResolution 400 = RESOLUTION_MAX :=
  (clampResolution_bounds 400).2.2.2.1 (by decide)

end AsciiVideo
